import Mathlib

/-!
Shallow embedding of the command-running core of the `invoke` repository
(`src/invoke/runners.py`): `normalize_hide`, the `Result` value object,
the pty-or-pipe policies `Runner.should_use_pty` / `Local.should_use_pty`,
the stream multiplexer `Local._mux` (incremental text decoding with a
replacement policy on malformed bytes), and the `Runner.run` orchestration
including the Windows-only universal-newline normalization and the final
return-or-raise step.

Platform facts that the Python code imports from outside this module
(`WINDOWS` from `.platform`, `os.isatty(sys.stdin.fileno())`) are modelled
as explicit parameters of an `Env` record.  The `Failure` exception class
lives in `invoke/exceptions.py`, which is not part of the sources here; it
is modelled from the spec as a typed wrapper carrying the `Result`.
-/

namespace Invoke

/-- A Python value that can be passed as the `hide` option of `run`:
`None`, a boolean, or a string.  `normalize_hide` in the source compares
the value against the tuple
`(None, False, 'out', 'stdout', 'err', 'stderr', 'both', True)`. -/
inductive HideVal where
  | none : HideVal
  | bool (b : Bool) : HideVal
  | str (s : String) : HideVal
deriving DecidableEq, Repr

/-- The tuple `hide_vals` from `normalize_hide`
(`src/invoke/runners.py` line 26). -/
def hide_vals : List HideVal :=
  [.none, .bool false, .str "out", .str "stdout", .str "err", .str "stderr",
   .str "both", .bool true]

/-- Python `repr` of a `HideVal`, as used by the `{0!r}` format field in the
error message of `normalize_hide`. -/
def HideVal.pyRepr : HideVal → String
  | .none => "None"
  | .bool true => "True"
  | .bool false => "False"
  | .str s => "'" ++ s ++ "'"

/-- Python `repr` of the `hide_vals` tuple, as interpolated into the
`normalize_hide` error message by the `{1!r}` format field. -/
def hideValsRepr : String :=
  "(None, False, 'out', 'stdout', 'err', 'stderr', 'both', True)"

/-- The error message raised by `normalize_hide` for a value outside the
accepted vocabulary: the source formats
`"'hide' got {0!r} which is not in {1!r}"` with the offending value and the
`hide_vals` tuple. -/
def hideErrMsg (val : HideVal) : String :=
  "'hide' got " ++ val.pyRepr ++ " which is not in " ++ hideValsRepr

/-- Embedding of `normalize_hide` (`src/invoke/runners.py` lines 25-40).
Returns the canonical hide tuple, or the `ValueError` message.  The final
Python branch `hide = (val,)` is reachable only for the strings
`'out'` / `'err'` and is embedded literally as `[val]`. -/
def normalize_hide (val : HideVal) : Except String (List HideVal) :=
  if val ∉ hide_vals then
    .error (hideErrMsg val)
  else if val = .none ∨ val = .bool false then
    .ok []
  else if val = .str "both" ∨ val = .bool true then
    .ok [.str "out", .str "err"]
  else if val = .str "stdout" then
    .ok [.str "out"]
  else if val = .str "stderr" then
    .ok [.str "err"]
  else
    .ok [val]

/-- Embedding of the `Result` class (`src/invoke/runners.py` lines 346-400).
`__init__` assigns `self.exited = self.return_code = exited`, so
`return_code` is embedded as a definitional alias of `exited`.  The
`exception` slot only ever receives the literal `False` from `run`. -/
structure Result where
  stdout : String
  stderr : String
  exited : Int
  pty : Bool
  exception : Bool
deriving DecidableEq, Repr

/-- The `return_code` alias: `self.exited = self.return_code = exited`. -/
def Result.return_code (r : Result) : Int := r.exited

/-- The `ok` property: `return self.exited == 0`. -/
def Result.ok (r : Result) : Bool := r.exited == 0

/-- The `failed` property: `return not self.ok`. -/
def Result.failed (r : Result) : Bool := !r.ok

/-- Boolean coercion, `__nonzero__` / `__bool__`: `return self.exited == 0`. -/
def Result.toBool (r : Result) : Bool := r.exited == 0

/-- The Unicode replacement character U+FFFD substituted for malformed byte
sequences under the `errors='replace'` policy of `codecs.iterdecode`. -/
def replChar : Char := Char.ofNat 0xFFFD

/-- Total length (in bytes) of a UTF-8 sequence determined by its lead byte;
`0` when the byte cannot begin a sequence. -/
def seqLen (b : Nat) : Nat :=
  if b < 0x80 then 1
  else if 0xC2 ≤ b ∧ b ≤ 0xDF then 2
  else if 0xE0 ≤ b ∧ b ≤ 0xEF then 3
  else if 0xF0 ≤ b ∧ b ≤ 0xF4 then 4
  else 0

/-- Whether byte `b` is an acceptable continuation of the pending incomplete
sequence (CPython restricts the second byte after the leads E0, ED, F0 and
F4 to exclude overlong and surrogate encodings). -/
def contOK (pending : List Nat) (b : Nat) : Bool :=
  match pending with
  | [0xE0] => decide (0xA0 ≤ b ∧ b ≤ 0xBF)
  | [0xED] => decide (0x80 ≤ b ∧ b ≤ 0x9F)
  | [0xF0] => decide (0x90 ≤ b ∧ b ≤ 0xBF)
  | [0xF4] => decide (0x80 ≤ b ∧ b ≤ 0x8F)
  | _ => decide (0x80 ≤ b ∧ b ≤ 0xBF)

/-- The character encoded by a complete, validated UTF-8 byte sequence. -/
def seqChar : List Nat → Char
  | [a] => Char.ofNat a
  | [a, b] => Char.ofNat ((a - 0xC0) * 0x40 + (b - 0x80))
  | [a, b, c] => Char.ofNat ((a - 0xE0) * 0x1000 + (b - 0x80) * 0x40 + (c - 0x80))
  | [a, b, c, d] =>
      Char.ofNat ((a - 0xF0) * 0x40000 + (b - 0x80) * 0x1000 +
        (c - 0x80) * 0x40 + (d - 0x80))
  | _ => replChar

/-- One step of the incremental decoder on an empty pending buffer: ASCII is
emitted directly, a valid lead byte is buffered, and an invalid lead or a
stray continuation byte is replaced. -/
def utf8StepEmpty (b : Nat) : List Nat × List Char :=
  if b < 0x80 then ([], [Char.ofNat b])
  else if 2 ≤ seqLen b then ([b], [])
  else ([], [replChar])

/-- One step of the incremental decoder: the state is the pending incomplete
multi-byte sequence carried between reads.  On an invalid continuation the
pending maximal subpart is replaced by one replacement character and the new
byte is reprocessed fresh.  Total: never raises on malformed input. -/
def utf8Step (st : List Nat) (b : Nat) : List Nat × List Char :=
  match st with
  | [] => utf8StepEmpty b
  | p :: _ =>
    if contOK st b then
      let full := st ++ [b]
      if full.length = seqLen p then ([], [seqChar full]) else (full, [])
    else
      let r := utf8StepEmpty b
      (r.1, replChar :: r.2)

/-- Feeding a chunk of bytes through the incremental decoder, byte by byte,
threading the pending-bytes state. -/
def utf8Feed (st : List Nat) : List Nat → List Nat × List Char
  | [] => (st, [])
  | b :: bs =>
    let r := utf8Step st b
    let r2 := utf8Feed r.1 bs
    (r2.1, r.2 ++ r2.2)

/-- Final flush of the incremental decoder: a trailing incomplete sequence
becomes a single replacement character (the `final=True` decode call made by
`codecs.iterdecode` after the byte iterator is exhausted). -/
def utf8Flush (st : List Nat) : List Char :=
  if st.isEmpty then [] else [replChar]

/-- Embedding of `codecs.iterdecode(chunks, encoding, errors='replace')` as
used by `Local._mux` (`src/invoke/runners.py` line 289), instantiated at the
UTF-8 codec: yields one decoded piece per input chunk, skipping empty
outputs, and flushes the decoder after the last chunk exactly as the
`codecs.iterdecode` generator does. -/
def iterdecodeAux (st : List Nat) : List (List Nat) → List (List Char)
  | [] =>
    let f := utf8Flush st
    if f.isEmpty then [] else [f]
  | c :: cs =>
    let r := utf8Feed st c
    let rest := iterdecodeAux r.1 cs
    if r.2.isEmpty then rest else r.2 :: rest

/-- `iterdecode` started from the empty decoder state. -/
def iterdecode (chunks : List (List Nat)) : List (List Char) :=
  iterdecodeAux [] chunks

/-- Decoding a whole byte string in one shot with the replacement policy:
the reference against which chunked decoding is compared. -/
def utf8DecodeReplace (bs : List Nat) : List Char :=
  (utf8Feed [] bs).2 ++ utf8Flush (utf8Feed [] bs).1

namespace Local

/-- Embedding of the loop body of `Local._mux`
(`src/invoke/runners.py` lines 274-293): for each decoded piece, the piece
is written to the sink only when the stream is not hidden, and is appended
to the accumulation buffer unconditionally.  Returns
`(buffer contents, sink writes)` in read order. -/
def muxLoop (hideStream : Bool) : List (List Char) → List (List Char) × List (List Char)
  | [] => ([], [])
  | d :: rest =>
    let r := muxLoop hideStream rest
    (d :: r.1, if hideStream then r.2 else d :: r.2)

/-- `Local._mux`: decode the raw byte chunks read from the stream with the
incremental replacement decoder, then echo-unless-hidden and capture. -/
def _mux (chunks : List (List Nat)) (hideStream : Bool) :
    List (List Char) × List (List Char) :=
  muxLoop hideStream (iterdecode chunks)

end Local

/-- Per-instance runner state: `Runner.__init__` sets
`self.warned_about_pty_fallback = False` (`src/invoke/runners.py` line 77). -/
structure RunnerState where
  warned_about_pty_fallback : Bool
deriving DecidableEq, Repr

/-- `Runner.__init__`: the fresh bookkeeping state of a new runner. -/
def Runner.init : RunnerState := RunnerState.mk false

/-- Embedding of the base policy `Runner.should_use_pty`
(`src/invoke/runners.py` lines 221-232): returns the requested `pty` flag
unchanged; `fallback` is not used. -/
def Runner.should_use_pty (pty : Bool) (fallback : Bool) : Bool := pty

/-- The warning `Local.should_use_pty` writes to stderr on pty fallback. -/
def ptyFallbackWarning : String :=
  "WARNING: stdin is not a pty; falling back to non-pty execution!\n"

/-- Embedding of `Local.should_use_pty` (`src/invoke/runners.py` lines
250-259).  `isatty` stands for `os.isatty(sys.stdin.fileno())`.  Returns the
decision together with the updated runner state and the list of warnings
written to stderr; the function itself never raises. -/
def Local.should_use_pty (st : RunnerState) (isatty : Bool) (pty : Bool)
    (fallback : Bool) : Bool × RunnerState × List String :=
  if pty then
    if !isatty && fallback then
      if !st.warned_about_pty_fallback then
        (false, RunnerState.mk true, [ptyFallbackWarning])
      else
        (false, st, [])
    else (true, st, [])
  else (false, st, [])

/-- Platform facts the source imports from outside this module: `WINDOWS`
from `invoke/platform.py` and the interactivity of stdin. -/
structure Env where
  windows : Bool
  isattyStdin : Bool
deriving DecidableEq, Repr

/-- The `run` options after kwarg/config resolution (the fields the control
flow of `Runner.run` consults; the sink and encoding overrides do not alter
the captured result and are tracked through the effect lists instead). -/
structure RunOpts where
  warn : Bool
  hide : HideVal
  pty : Bool
  fallback : Bool
  echo : Bool
deriving DecidableEq, Repr

/-- The observable behavior of the spawned child process: the byte chunks
successively returned by the stdout-side reader (the pty master channel when
a pty is used), the chunks of the stderr pipe, and the exit code reported by
`returncode()`. -/
structure Proc where
  outChunks : List (List Nat)
  errChunks : List (List Nat)
  exitCode : Int
deriving DecidableEq, Repr

/-- Modelled from the spec: the typed `Failure` exception of
`invoke/exceptions.py` (not among the sources), carrying the `Result`. -/
structure Failure where
  result : Result
deriving DecidableEq, Repr

/-- The exceptions `Runner.run` can raise: the `ValueError` from
`normalize_hide`, or a `Failure` wrapping the `Result`. -/
inductive RunError where
  | valueError (msg : String) : RunError
  | failure (f : Failure) : RunError
deriving DecidableEq, Repr

/-- Side effects of one `run` call: the echoed command line, the pty
fallback warnings, and the live writes to the out/err sinks. -/
structure RunEffects where
  echoes : List String
  warnings : List String
  outWrites : List (List Char)
  errWrites : List (List Char)
deriving DecidableEq, Repr

/-- The line printed by `run` when `echo` is set:
`"\033[1;37m{0}\033[0m".format(command)`. -/
def echoLine (command : String) : String :=
  "\x1b[1;37m" ++ command ++ "\x1b[0m"

/-- Sequential left-to-right replacement of `"\r\n"` by `"\n"` on the
character list of a string, as performed by the first
`.replace("\r\n", "\n")` call in `Runner.run`. -/
def replaceCRLF : List Char → List Char
  | [] => []
  | '\r' :: '\n' :: rest => '\n' :: replaceCRLF rest
  | c :: rest => c :: replaceCRLF rest

/-- Replacement of every remaining `"\r"` by `"\n"`, as performed by the
second `.replace("\r", "\n")` call in `Runner.run`. -/
def replaceCR : List Char → List Char
  | [] => []
  | '\r' :: rest => '\n' :: replaceCR rest
  | c :: rest => c :: replaceCR rest

/-- The universal-newline normalization applied by `Runner.run` on Windows
(`src/invoke/runners.py` lines 199-206):
`s.replace("\r\n", "\n").replace("\r", "\n")`. -/
def universal_newlines (s : String) : String :=
  String.mk (replaceCR (replaceCRLF s.data))

/-- The concatenation `''.join(stdout)` of the chunks the stdout
multiplexer accumulated (`src/invoke/runners.py` line 197), before any
newline normalization. -/
def Local.rawStdout (proc : Proc) (hide : List HideVal) : String :=
  String.mk (Local._mux proc.outChunks (decide (HideVal.str "out" ∈ hide))).1.flatten

/-- The concatenation `''.join(stderr)` of the chunks the stderr
multiplexer accumulated (`src/invoke/runners.py` line 198): when a pty is
used no stderr multiplexer is started, so the accumulator stays `[]`. -/
def Local.rawStderr (st : RunnerState) (env : Env) (opts : RunOpts)
    (proc : Proc) (hide : List HideVal) : String :=
  let using_pty := (Local.should_use_pty st env.isattyStdin opts.pty opts.fallback).1
  let errMux := if using_pty then (([], []) : List (List Char) × List (List Char))
                else Local._mux proc.errChunks (decide (HideVal.str "err" ∈ hide))
  String.mk errMux.1.flatten

/-- The `Result` assembled by `Runner.run` (`src/invoke/runners.py` lines
178-216) once the `hide` option has been normalized: the stdout multiplexer
always runs; the stderr multiplexer runs only when no pty is used, so in pty
mode the stderr accumulator stays empty; both captured strings get the
universal-newline normalization exactly when `WINDOWS`. -/
def Local.runResult (st : RunnerState) (env : Env) (opts : RunOpts)
    (proc : Proc) (hide : List HideVal) : Result :=
  let using_pty := (Local.should_use_pty st env.isattyStdin opts.pty opts.fallback).1
  let stdout0 := Local.rawStdout proc hide
  let stderr0 := Local.rawStderr st env opts proc hide
  let stdout1 := if env.windows then universal_newlines stdout0 else stdout0
  let stderr1 := if env.windows then universal_newlines stderr0 else stderr0
  Result.mk stdout1 stderr1 proc.exitCode using_pty false

/-- The part of `Local.run` after `normalize_hide` has succeeded: echo,
policy decision, multiplexing, result assembly, and the final
`if not (result or opts['warn']): raise Failure(result)` step
(`src/invoke/runners.py` lines 161-219). -/
def Local.runOk (st : RunnerState) (env : Env) (command : String)
    (opts : RunOpts) (proc : Proc) (hide : List HideVal) :
    RunnerState × RunEffects × Except RunError Result :=
  let p := Local.should_use_pty st env.isattyStdin opts.pty opts.fallback
  let outMux := Local._mux proc.outChunks (decide (HideVal.str "out" ∈ hide))
  let errMux := if p.1 then (([], []) : List (List Char) × List (List Char))
                else Local._mux proc.errChunks (decide (HideVal.str "err" ∈ hide))
  let result := Local.runResult st env opts proc hide
  let effects := RunEffects.mk (if opts.echo then [echoLine command] else [])
    p.2.2 outMux.2 errMux.2
  if !(result.toBool || opts.warn) then
    (p.2.1, effects, Except.error (RunError.failure (Failure.mk result)))
  else
    (p.2.1, effects, Except.ok result)

/-- Embedding of `Local(context).run(command, ...)` with resolved options:
normalizes `hide` first (raising the `ValueError` before anything else
happens), then proceeds as `Local.runOk`.  Returns the updated per-instance
state, the side effects, and either the raised error or the `Result`. -/
def Local.run (st : RunnerState) (env : Env) (command : String)
    (opts : RunOpts) (proc : Proc) :
    RunnerState × RunEffects × Except RunError Result :=
  match normalize_hide opts.hide with
  | Except.error msg =>
      (st, RunEffects.mk [] [] [] [], Except.error (RunError.valueError msg))
  | Except.ok hide => Local.runOk st env command opts proc hide

/-- Extracting the `Result` carried by the outcome of a `run` call: the
returned one, or the one wrapped in the raised `Failure`. -/
def runFinal : Except RunError Result → Option Result
  | Except.ok r => some r
  | Except.error (RunError.failure f) => some f.result
  | Except.error (RunError.valueError _) => none

/-- A sequence of `run` calls on one `Local` runner instance, threading the
per-instance state and collecting all pty fallback warnings emitted. -/
def Local.runSeq (st : RunnerState) :
    List (Env × String × RunOpts × Proc) → RunnerState × List String
  | [] => (st, [])
  | c :: rest =>
    let r := Local.run st c.1 c.2.1 c.2.2.1 c.2.2.2
    let r2 := Local.runSeq r.1 rest
    (r2.1, r.2.1.warnings ++ r2.2)

/-- A Python value as passed through the kwargs of `run`. -/
inductive PyVal where
  | none : PyVal
  | bool (b : Bool) : PyVal
  | int (n : Int) : PyVal
  | str (s : String) : PyVal
deriving DecidableEq, Repr

/-- Embedding of the per-key option resolution loop of `Runner.run`
(`src/invoke/runners.py` lines 153-157):
`runtime = kwargs.pop(key, None); opts[key] = value if runtime is None else
runtime`.  `kwarg = Option.none` models an absent key; `some PyVal.none`
models a key explicitly passed as `None`. -/
def resolveOpt (value : PyVal) (kwarg : Option PyVal) : PyVal :=
  let runtime := kwarg.getD PyVal.none
  if runtime = PyVal.none then value else runtime

/-- Number of pty fallback warnings the sticky flag still permits. -/
def warnPotential (st : RunnerState) : Nat :=
  if st.warned_about_pty_fallback then 0 else 1

lemma Local.run_eq_ok (st : RunnerState) (env : Env) (command : String)
    (opts : RunOpts) (proc : Proc) (hide : List HideVal)
    (h : normalize_hide opts.hide = Except.ok hide) :
    Local.run st env command opts proc = Local.runOk st env command opts proc hide := by
  unfold Local.run
  rw [h]

lemma Local.run_eq_err (st : RunnerState) (env : Env) (command : String)
    (opts : RunOpts) (proc : Proc) (msg : String)
    (h : normalize_hide opts.hide = Except.error msg) :
    Local.run st env command opts proc =
      (st, RunEffects.mk [] [] [] [], Except.error (RunError.valueError msg)) := by
  unfold Local.run
  rw [h]

lemma Local.runResult_exited (st : RunnerState) (env : Env) (opts : RunOpts)
    (proc : Proc) (hide : List HideVal) :
    (Local.runResult st env opts proc hide).exited = proc.exitCode := rfl

lemma Local.runResult_pty (st : RunnerState) (env : Env) (opts : RunOpts)
    (proc : Proc) (hide : List HideVal) :
    (Local.runResult st env opts proc hide).pty =
      (Local.should_use_pty st env.isattyStdin opts.pty opts.fallback).1 := rfl

lemma Local.runOk_snd (st : RunnerState) (env : Env) (command : String)
    (opts : RunOpts) (proc : Proc) (hide : List HideVal) :
    (Local.runOk st env command opts proc hide).2.2 =
      if proc.exitCode ≠ 0 ∧ opts.warn = false then
        Except.error (RunError.failure (Failure.mk (Local.runResult st env opts proc hide)))
      else
        Except.ok (Local.runResult st env opts proc hide) := by
  unfold Local.runOk
  by_cases hz : proc.exitCode = 0 <;> cases hw : opts.warn <;>
    simp [Result.toBool, Local.runResult_exited, hz, hw]

lemma Local.runOk_fst (st : RunnerState) (env : Env) (command : String)
    (opts : RunOpts) (proc : Proc) (hide : List HideVal) :
    (Local.runOk st env command opts proc hide).1 =
      (Local.should_use_pty st env.isattyStdin opts.pty opts.fallback).2.1 := by
  unfold Local.runOk
  by_cases hb : (!((Local.runResult st env opts proc hide).toBool || opts.warn)) = true <;>
    simp [hb]

lemma Local.runOk_warnings (st : RunnerState) (env : Env) (command : String)
    (opts : RunOpts) (proc : Proc) (hide : List HideVal) :
    (Local.runOk st env command opts proc hide).2.1.warnings =
      (Local.should_use_pty st env.isattyStdin opts.pty opts.fallback).2.2 := by
  unfold Local.runOk
  by_cases hb : (!((Local.runResult st env opts proc hide).toBool || opts.warn)) = true <;>
    simp [hb]

lemma runFinal_runOk (st : RunnerState) (env : Env) (command : String)
    (opts : RunOpts) (proc : Proc) (hide : List HideVal) :
    runFinal (Local.runOk st env command opts proc hide).2.2 =
      some (Local.runResult st env opts proc hide) := by
  rw [Local.runOk_snd]
  by_cases h : proc.exitCode ≠ 0 ∧ opts.warn = false <;> simp [h, runFinal]

lemma Local.muxLoop_fst (hideStream : Bool) (l : List (List Char)) :
    (Local.muxLoop hideStream l).1 = l := by
  induction l with
  | nil => rfl
  | cons d rest ih => simp [Local.muxLoop, ih]

lemma Local.muxLoop_snd_true (l : List (List Char)) :
    (Local.muxLoop true l).2 = [] := by
  induction l with
  | nil => rfl
  | cons d rest ih => simp [Local.muxLoop, ih]

lemma Local.muxLoop_snd_false (l : List (List Char)) :
    (Local.muxLoop false l).2 = l := by
  induction l with
  | nil => rfl
  | cons d rest ih => simp [Local.muxLoop, ih]

lemma Local.mux_fst (chunks : List (List Nat)) (hideStream : Bool) :
    (Local._mux chunks hideStream).1 = iterdecode chunks := by
  unfold Local._mux
  exact Local.muxLoop_fst hideStream (iterdecode chunks)

lemma Local.rawStdout_hide_irrelevant (proc : Proc) (h1 h2 : List HideVal) :
    Local.rawStdout proc h1 = Local.rawStdout proc h2 := by
  unfold Local.rawStdout
  rw [Local.mux_fst, Local.mux_fst]

lemma Local.rawStderr_hide_irrelevant (st : RunnerState) (env : Env)
    (opts1 opts2 : RunOpts) (proc : Proc) (h1 h2 : List HideVal)
    (hp : opts1.pty = opts2.pty) (hf : opts1.fallback = opts2.fallback) :
    Local.rawStderr st env opts1 proc h1 = Local.rawStderr st env opts2 proc h2 := by
  unfold Local.rawStderr
  rw [hp, hf]
  cases hpty : (Local.should_use_pty st env.isattyStdin opts2.pty opts2.fallback).1 <;>
    simp [hpty, Local.mux_fst]

lemma should_use_pty_potential (st : RunnerState) (isatty pty fallback : Bool) :
    (Local.should_use_pty st isatty pty fallback).2.2.length +
      warnPotential (Local.should_use_pty st isatty pty fallback).2.1 ≤
      warnPotential st := by
  rcases st with ⟨w⟩
  cases w <;> cases isatty <;> cases pty <;> cases fallback <;>
    simp [Local.should_use_pty, warnPotential]

lemma run_potential (st : RunnerState) (env : Env) (command : String)
    (opts : RunOpts) (proc : Proc) :
    (Local.run st env command opts proc).2.1.warnings.length +
      warnPotential (Local.run st env command opts proc).1 ≤
      warnPotential st := by
  cases h : normalize_hide opts.hide with
  | error msg =>
    rw [Local.run_eq_err st env command opts proc msg h]
    simp
  | ok hide =>
    rw [Local.run_eq_ok st env command opts proc hide h,
      Local.runOk_warnings, Local.runOk_fst]
    exact should_use_pty_potential st env.isattyStdin opts.pty opts.fallback

lemma runSeq_potential (calls : List (Env × String × RunOpts × Proc)) :
    ∀ st : RunnerState,
      (Local.runSeq st calls).2.length +
        warnPotential (Local.runSeq st calls).1 ≤ warnPotential st := by
  induction calls with
  | nil => intro st; simp [Local.runSeq]
  | cons c rest ih =>
    intro st
    have h1 := run_potential st c.1 c.2.1 c.2.2.1 c.2.2.2
    have h2 := ih (Local.run st c.1 c.2.1 c.2.2.1 c.2.2.2).1
    simp only [Local.runSeq, List.length_append]
    omega

lemma utf8Feed_append (a b : List Nat) :
    ∀ st : List Nat,
      utf8Feed st (a ++ b) =
        ((utf8Feed (utf8Feed st a).1 b).1,
         (utf8Feed st a).2 ++ (utf8Feed (utf8Feed st a).1 b).2) := by
  induction a with
  | nil => intro st; simp [utf8Feed]
  | cons x xs ih =>
    intro st
    simp only [List.cons_append, utf8Feed, List.append_eq, ih (utf8Step st x).1,
      List.append_assoc]

lemma iterdecodeAux_flatten (chunks : List (List Nat)) :
    ∀ st : List Nat,
      (iterdecodeAux st chunks).flatten =
        (utf8Feed st chunks.flatten).2 ++ utf8Flush (utf8Feed st chunks.flatten).1 := by
  induction chunks with
  | nil =>
    intro st
    by_cases h : (utf8Flush st).isEmpty <;>
      simp_all [iterdecodeAux, utf8Feed, List.isEmpty_iff]
  | cons c cs ih =>
    intro st
    have hfa := utf8Feed_append c cs.flatten st
    by_cases h : (utf8Feed st c).2.isEmpty <;>
      simp_all [iterdecodeAux, hfa, List.isEmpty_iff, List.append_assoc]

/-- C1: with a valid `hide` option, `Runner.run` raises the typed `Failure`
exactly when the exit code is nonzero and `warn` is false, and the raised
`Failure` wraps the very `Result` that the other cases return. -/
theorem run_raises_iff_nonzero_and_not_warn (st : RunnerState) (env : Env)
    (command : String) (opts : RunOpts) (proc : Proc) (hide : List HideVal)
    (h : normalize_hide opts.hide = Except.ok hide) :
    (Local.run st env command opts proc).2.2 =
      if proc.exitCode ≠ 0 ∧ opts.warn = false then
        Except.error (RunError.failure (Failure.mk (Local.runResult st env opts proc hide)))
      else
        Except.ok (Local.runResult st env opts proc hide) := by
  rw [Local.run_eq_ok st env command opts proc hide h, Local.runOk_snd]

/-- Witness for C1: a command exiting 1 with `warn=false` raises the
`Failure` carrying the assembled `Result`. -/
theorem run_raises_iff_nonzero_and_not_warn_witness :
    (Local.run (RunnerState.mk false) (Env.mk false true) "x"
        (RunOpts.mk false HideVal.none false true false) (Proc.mk [] [] 1)).2.2 =
      Except.error (RunError.failure (Failure.mk (Local.runResult (RunnerState.mk false)
        (Env.mk false true) (RunOpts.mk false HideVal.none false true false)
        (Proc.mk [] [] 1) []))) := by
  rw [run_raises_iff_nonzero_and_not_warn (RunnerState.mk false) (Env.mk false true) "x"
    (RunOpts.mk false HideVal.none false true false) (Proc.mk [] [] 1) [] rfl]
  rw [if_pos (by decide)]

/-- C2: for every `Result`, `ok` equals `exited == 0`, `failed` is the
negation of `ok`, boolean coercion equals `ok`, and `return_code` always
equals `exited`. -/
theorem result_ok_failed_bool_alias (r : Result) :
    r.ok = (r.exited == 0) ∧ r.failed = !r.ok ∧ r.toBool = r.ok ∧
    r.return_code = r.exited ∧ (r.ok = true ↔ r.exited = 0) ∧
    (r.failed = true ↔ r.exited ≠ 0) := by
  refine ⟨rfl, rfl, rfl, rfl, ?_, ?_⟩
  · simp [Result.ok]
  · simp [Result.failed, Result.ok]

/-- C3: `normalize_hide` maps the eight accepted values exactly to the
documented canonical sets, and every other value yields the `ValueError`
whose message names the accepted vocabulary; in `run` this error is raised
before anything else happens (state untouched, no effects). -/
theorem normalize_hide_canonical :
    normalize_hide HideVal.none = Except.ok [] ∧
    normalize_hide (HideVal.bool false) = Except.ok [] ∧
    normalize_hide (HideVal.bool true) = Except.ok [HideVal.str "out", HideVal.str "err"] ∧
    normalize_hide (HideVal.str "both") = Except.ok [HideVal.str "out", HideVal.str "err"] ∧
    normalize_hide (HideVal.str "stdout") = Except.ok [HideVal.str "out"] ∧
    normalize_hide (HideVal.str "out") = Except.ok [HideVal.str "out"] ∧
    normalize_hide (HideVal.str "stderr") = Except.ok [HideVal.str "err"] ∧
    normalize_hide (HideVal.str "err") = Except.ok [HideVal.str "err"] ∧
    (∀ v : HideVal, v ∉ hide_vals → normalize_hide v = Except.error (hideErrMsg v)) ∧
    (∀ v : HideVal, hideErrMsg v =
      ("'hide' got " ++ v.pyRepr ++ " which is not in ") ++ hideValsRepr) ∧
    (∀ (st : RunnerState) (env : Env) (command : String) (opts : RunOpts)
       (proc : Proc) (msg : String),
       normalize_hide opts.hide = Except.error msg →
       Local.run st env command opts proc =
         (st, RunEffects.mk [] [] [] [], Except.error (RunError.valueError msg))) := by
  refine ⟨rfl, rfl, rfl, rfl, rfl, rfl, rfl, rfl, ?_, ?_, ?_⟩
  · intro v hv
    simp [normalize_hide, hv]
  · intro v
    simp [hideErrMsg, String.append_assoc]
  · intro st env command opts proc msg h
    exact Local.run_eq_err st env command opts proc msg h

/-- Witness for C3: a value outside the vocabulary is rejected with the
message naming the vocabulary. -/
theorem normalize_hide_canonical_witness :
    normalize_hide (HideVal.str "nope") = Except.error (hideErrMsg (HideVal.str "nope")) :=
  normalize_hide_canonical.2.2.2.2.2.2.2.2.1 (HideVal.str "nope") (by decide)

/-- C4: with a valid `hide` option, the `Result` carried by the outcome of
`run` (returned, or wrapped in the raised `Failure`) reports exactly the
post-fallback pty decision in its `pty` field, and whenever pty mode was
used its `stderr` is the empty string. -/
theorem run_pty_mode_result (st : RunnerState) (env : Env) (command : String)
    (opts : RunOpts) (proc : Proc) (hide : List HideVal) (r : Result)
    (h : normalize_hide opts.hide = Except.ok hide)
    (hr : runFinal (Local.run st env command opts proc).2.2 = some r) :
    r.pty = (Local.should_use_pty st env.isattyStdin opts.pty opts.fallback).1 ∧
    (r.pty = true → r.stderr = "") := by
  rw [Local.run_eq_ok st env command opts proc hide h, runFinal_runOk] at hr
  obtain rfl : r = Local.runResult st env opts proc hide := (Option.some.inj hr).symm
  refine ⟨Local.runResult_pty st env opts proc hide, fun hp => ?_⟩
  rw [Local.runResult_pty] at hp
  show (if env.windows then universal_newlines (Local.rawStderr st env opts proc hide)
        else Local.rawStderr st env opts proc hide) = ""
  have hraw : Local.rawStderr st env opts proc hide = "" := by
    unfold Local.rawStderr
    simp [hp]
  rw [hraw]
  cases env.windows <;> simp [universal_newlines] <;> rfl

/-- Witness for C4: a pty-mode run yields `pty = true` and empty `stderr`. -/
theorem run_pty_mode_result_witness :
    (Result.mk "h" "" 0 true false).pty =
      (Local.should_use_pty (RunnerState.mk false) true true true).1 ∧
    ((Result.mk "h" "" 0 true false).pty = true →
      (Result.mk "h" "" 0 true false).stderr = "") :=
  run_pty_mode_result (RunnerState.mk false) (Env.mk false true) "x"
    (RunOpts.mk false HideVal.none true true false) (Proc.mk [[104]] [[101]] 0) []
    (Result.mk "h" "" 0 true false) rfl (by decide)

/-- C5: capture is independent of hide.  The `_mux` accumulation buffer
receives every decoded piece whatever the hide flag; hiding empties only the
sink writes; and at the `run` level two calls differing only in their `hide`
option produce results with identical `stdout` and `stderr`. -/
theorem mux_capture_independent_of_hide :
    (∀ (chunks : List (List Nat)) (h1 h2 : Bool),
       (Local._mux chunks h1).1 = (Local._mux chunks h2).1) ∧
    (∀ chunks : List (List Nat),
       (Local._mux chunks true).2 = [] ∧
       (Local._mux chunks false).2 = (Local._mux chunks false).1) ∧
    (∀ (st : RunnerState) (env : Env) (command : String) (opts : RunOpts)
       (proc : Proc) (v1 v2 : HideVal) (l1 l2 : List HideVal) (r1 r2 : Result),
       normalize_hide v1 = Except.ok l1 →
       normalize_hide v2 = Except.ok l2 →
       runFinal (Local.run st env command { opts with hide := v1 } proc).2.2 = some r1 →
       runFinal (Local.run st env command { opts with hide := v2 } proc).2.2 = some r2 →
       r1.stdout = r2.stdout ∧ r1.stderr = r2.stderr) := by
  refine ⟨?_, ?_, ?_⟩
  · intro chunks h1 h2
    rw [Local.mux_fst, Local.mux_fst]
  · intro chunks
    constructor
    · unfold Local._mux
      exact Local.muxLoop_snd_true (iterdecode chunks)
    · unfold Local._mux
      rw [Local.muxLoop_snd_false, Local.muxLoop_fst]
  · intro st env command opts proc v1 v2 l1 l2 r1 r2 h1 h2 hr1 hr2
    rw [Local.run_eq_ok st env command _ proc l1 h1, runFinal_runOk] at hr1
    rw [Local.run_eq_ok st env command _ proc l2 h2, runFinal_runOk] at hr2
    obtain rfl : r1 = Local.runResult st env { opts with hide := v1 } proc l1 :=
      (Option.some.inj hr1).symm
    obtain rfl : r2 = Local.runResult st env { opts with hide := v2 } proc l2 :=
      (Option.some.inj hr2).symm
    have hout := Local.rawStdout_hide_irrelevant proc l1 l2
    have herr := Local.rawStderr_hide_irrelevant st env { opts with hide := v1 }
      { opts with hide := v2 } proc l1 l2 rfl rfl
    have heq : Local.runResult st env { opts with hide := v1 } proc l1 =
        Local.runResult st env { opts with hide := v2 } proc l2 := by
      simp only [Local.runResult, hout, herr]
    exact ⟨congrArg Result.stdout heq, congrArg Result.stderr heq⟩

/-- Witness for C5: hiding both streams still captures the full output. -/
theorem mux_capture_independent_of_hide_witness :
    (Result.mk "h" "e" 0 false false).stdout = (Result.mk "h" "e" 0 false false).stdout ∧
    (Result.mk "h" "e" 0 false false).stderr = (Result.mk "h" "e" 0 false false).stderr :=
  mux_capture_independent_of_hide.2.2 (RunnerState.mk false) (Env.mk false true) "x"
    (RunOpts.mk false HideVal.none false true false) (Proc.mk [[104]] [[101]] 0)
    HideVal.none (HideVal.bool true) [] [HideVal.str "out", HideVal.str "err"]
    (Result.mk "h" "e" 0 false false) (Result.mk "h" "e" 0 false false)
    rfl rfl (by decide) (by decide)

/-- C6: the base policy returns the requested pty flag unchanged, and the
local policy grants a pty exactly when it was requested and not downgraded,
the downgrade happening precisely when stdin is not interactive and fallback
is allowed; both policies are total functions and never raise. -/
theorem should_use_pty_policy :
    (∀ (pty fallback : Bool), Runner.should_use_pty pty fallback = pty) ∧
    (∀ (st : RunnerState) (isatty pty fallback : Bool),
       (Local.should_use_pty st isatty pty fallback).1 =
         (pty && !(!isatty && fallback))) := by
  constructor
  · intro pty fallback
    rfl
  · intro st isatty pty fallback
    rcases st with ⟨w⟩
    cases w <;> cases isatty <;> cases pty <;> cases fallback <;> rfl

/-- C7: across any sequence of `run` calls on one freshly initialized
runner instance, the pty fallback warning is emitted at most once. -/
theorem pty_fallback_warning_at_most_once
    (calls : List (Env × String × RunOpts × Proc)) :
    (Local.runSeq Runner.init calls).2.length ≤ 1 := by
  have h := runSeq_potential calls Runner.init
  have : warnPotential Runner.init = 1 := rfl
  omega

/-- C8: the captured strings are exactly the multiplexer accumulations,
universal-newline normalized precisely when the platform is Windows and
byte-for-byte unchanged otherwise; the normalization replaces every CRLF
and every remaining bare CR by LF. -/
theorem windows_newline_normalization (st : RunnerState) (env : Env)
    (command : String) (opts : RunOpts) (proc : Proc) (hide : List HideVal)
    (r : Result)
    (h : normalize_hide opts.hide = Except.ok hide)
    (hr : runFinal (Local.run st env command opts proc).2.2 = some r) :
    (env.windows = true →
       r.stdout = universal_newlines (Local.rawStdout proc hide) ∧
       r.stderr = universal_newlines (Local.rawStderr st env opts proc hide)) ∧
    (env.windows = false →
       r.stdout = Local.rawStdout proc hide ∧
       r.stderr = Local.rawStderr st env opts proc hide) ∧
    universal_newlines (String.mk ['a', '\r', '\n', 'b', '\r', 'c']) =
      String.mk ['a', '\n', 'b', '\n', 'c'] := by
  rw [Local.run_eq_ok st env command opts proc hide h, runFinal_runOk] at hr
  obtain rfl : r = Local.runResult st env opts proc hide := (Option.some.inj hr).symm
  refine ⟨fun hw => ?_, fun hw => ?_, by decide⟩ <;>
    constructor <;>
      simp [Local.runResult, hw]

/-- Witness for C8: on Windows, CRLF and bare CR in the captured stdout are
normalized to LF. -/
theorem windows_newline_normalization_witness :
    (Result.mk "a\nb\nc" "" 0 false false).stdout =
      universal_newlines (Local.rawStdout (Proc.mk [[97, 13, 10, 98, 13, 99]] [] 0) []) := by
  have h := windows_newline_normalization (RunnerState.mk false) (Env.mk true true) "x"
    (RunOpts.mk false HideVal.none false true false) (Proc.mk [[97, 13, 10, 98, 13, 99]] [] 0)
    [] (Result.mk "a\nb\nc" "" 0 false false) rfl (by decide)
  exact (h.1 rfl).1

/-- C9: the incremental replacement decoder never loses or duplicates
characters at chunk boundaries — decoding any chunking of a byte stream
yields exactly the one-shot decode of the concatenation — and malformed
bytes are replaced with U+FFFD while processing continues; the decoder is a
total function and never fails. -/
theorem iterdecode_replace_correct :
    (∀ chunks : List (List Nat),
       (iterdecode chunks).flatten = utf8DecodeReplace chunks.flatten) ∧
    utf8DecodeReplace [0xFF, 0x41] = [replChar, 'A'] ∧
    utf8DecodeReplace [0xC3, 0xA9] = [Char.ofNat 0xE9] ∧
    iterdecode [[0xC3], [0xA9]] = [[Char.ofNat 0xE9]] ∧
    utf8DecodeReplace [0xC3] = [replChar] := by
  refine ⟨?_, by decide, by decide, by decide, by decide⟩
  intro chunks
  unfold iterdecode utf8DecodeReplace
  exact iterdecodeAux_flatten chunks []

/-- C10: a kwarg explicitly passed as `None` is indistinguishable from an
omitted kwarg — both resolve to the context default — while every non-None
runtime value (including `False`, `0`, `''`) overrides the default. -/
theorem kwarg_none_means_default :
    (∀ d : PyVal, resolveOpt d (some PyVal.none) = d) ∧
    (∀ d : PyVal, resolveOpt d Option.none = d) ∧
    (∀ d v : PyVal, v ≠ PyVal.none → resolveOpt d (some v) = v) := by
  refine ⟨fun d => rfl, fun d => rfl, fun d v hv => ?_⟩
  simp [resolveOpt, hv]

/-- Witness for C10: the non-None value `False` does override a `True`
default. -/
theorem kwarg_none_means_default_witness :
    resolveOpt (PyVal.bool true) (some (PyVal.bool false)) = PyVal.bool false :=
  kwarg_none_means_default.2.2 (PyVal.bool true) (PyVal.bool false) (by decide)

end Invoke
